import Mathlib

/-!
Verification of the Last-Mile Logistics API (src/main.py): a shallow
embedding of its in-memory job/driver registries and the endpoint
handlers `get_jobs`, `create_job`, `assign_driver`, `complete_job`,
`get_drivers`, `create_driver`, together with theorems about the
lifecycle invariants and endpoint contracts.

Python `int` is embedded as `Int` (unbounded), Python `str` as `String`,
`Optional[T]` as `Option T`, and a raised `HTTPException` as the error
branch of `Except`.
-/

namespace LastMile

/-- The `Driver` pydantic model of src/main.py (lines 34-39). -/
structure Driver where
  id : Int
  name : String
  current_location : Option String := none
  phone : Option String := none
  vehicle_type : Option String := none
deriving Repr, DecidableEq

/-- The `DriverCreate` pydantic model of src/main.py (lines 42-46):
the validated request body for `POST /drivers`. -/
structure DriverCreate where
  name : String
  current_location : Option String := none
  phone : Option String := none
  vehicle_type : Option String := none
deriving Repr, DecidableEq

/-- The `Job` pydantic model of src/main.py (lines 49-62).
`price_offered` is `Optional[float]`; its value is only ever stored and
returned, never computed with, so it is carried as `Option Float`. -/
structure Job where
  id : Int
  pickup_location : String
  dropoff_location : String
  load_description : String
  status : String
  driver_id : Option Int := none
  weight : Option String := none
  equipment_type : Option String := none
  delivery_window : Option String := none
  contact_phone : Option String := none
  price_offered : Option Float := none
deriving Repr

/-- The `JobCreate` pydantic model of src/main.py (lines 65-73):
the validated request body for `POST /jobs`. -/
structure JobCreate where
  pickup_location : String
  dropoff_location : String
  load_description : String
  weight : Option String := none
  equipment_type : Option String := none
  delivery_window : Option String := none
  contact_phone : Option String := none
  price_offered : Option Float := none
deriving Repr

/-- A raised `HTTPException(status_code=..., detail=...)`. -/
structure HTTPError where
  status_code : Int
  detail : String
deriving Repr, DecidableEq

/-- The process-wide mutable state of src/main.py: the `drivers` and
`jobs` lists (lines 79-89) and the counters `next_job_id`,
`next_driver_id` (lines 91-92). -/
structure AppState where
  drivers : List Driver
  jobs : List Job
  next_job_id : Int
  next_driver_id : Int
deriving Repr

/-- The seed data and initial counters of src/main.py (lines 79-92). -/
def initState : AppState :=
  { drivers :=
      [ { id := 1, name := "John Doe", current_location := some "Seattle",
          phone := some "555-1234", vehicle_type := some "Box Truck" },
        { id := 2, name := "Sarah Lee", current_location := some "Bellevue",
          phone := some "555-5678", vehicle_type := some "Dry Van" } ],
    jobs :=
      [ { id := 1, pickup_location := "Amazon SODO",
          dropoff_location := "Bellevue Downtown",
          load_description := "Pallet of boxes", status := "available" },
        { id := 2, pickup_location := "Port of Seattle Terminal 18",
          dropoff_location := "Redmond Microsoft Campus",
          load_description := "Electronics container", status := "available" } ],
    next_job_id := 3,
    next_driver_id := 3 }

/-- `GET /jobs` (src/main.py lines 134-136): returns the jobs list and
touches nothing. -/
def get_jobs (s : AppState) : List Job × AppState :=
  (s.jobs, s)

/-- `GET /drivers` (src/main.py lines 108-110). -/
def get_drivers (s : AppState) : List Driver × AppState :=
  (s.drivers, s)

/-- Python truthiness of `x or "Unknown"` for `x : Optional[str]`:
`None` and the empty string are falsy, any other string is truthy. -/
def orUnknown : Option String → String
  | none => "Unknown"
  | some l => if l = "" then "Unknown" else l

/-- `POST /drivers` handler `create_driver` (src/main.py lines 113-127):
builds a `Driver` from the validated body with the next id and
`current_location=driver.current_location or "Unknown"`, appends it,
and bumps the counter. -/
def create_driver (s : AppState) (driver : DriverCreate) : AppState × Driver :=
  let new_driver : Driver :=
    { id := s.next_driver_id,
      name := driver.name,
      current_location := some (orUnknown driver.current_location),
      phone := driver.phone,
      vehicle_type := driver.vehicle_type }
  ({ s with drivers := s.drivers ++ [new_driver],
            next_driver_id := s.next_driver_id + 1 },
   new_driver)

/-- `POST /jobs` handler `create_job` (src/main.py lines 139-159):
builds a `Job` from the validated body with the next id,
`status="available"`, `driver_id=None`, appends it, bumps the counter. -/
def create_job (s : AppState) (job : JobCreate) : AppState × Job :=
  let new_job : Job :=
    { id := s.next_job_id,
      pickup_location := job.pickup_location,
      dropoff_location := job.dropoff_location,
      load_description := job.load_description,
      status := "available",
      driver_id := none,
      weight := job.weight,
      equipment_type := job.equipment_type,
      delivery_window := job.delivery_window,
      contact_phone := job.contact_phone,
      price_offered := job.price_offered }
  ({ s with jobs := s.jobs ++ [new_job], next_job_id := s.next_job_id + 1 },
   new_job)

/-- The `for job in jobs: if job.id == job_id:` loop of `assign_driver`
(src/main.py lines 164-168): mutate the first job whose id matches and
stop; `none` when the loop falls through. -/
def assignInJobs (job_id driver_id : Int) : List Job → Option (List Job × Job)
  | [] => none
  | j :: rest =>
    if j.id = job_id then
      let j' := { j with status := "assigned", driver_id := some driver_id }
      some (j' :: rest, j')
    else
      match assignInJobs job_id driver_id rest with
      | none => none
      | some (rest', jr) => some (j :: rest', jr)

/-- The `for job in jobs:` loop of `complete_job`
(src/main.py lines 175-178). -/
def completeInJobs (job_id : Int) : List Job → Option (List Job × Job)
  | [] => none
  | j :: rest =>
    if j.id = job_id then
      let j' := { j with status := "completed" }
      some (j' :: rest, j')
    else
      match completeInJobs job_id rest with
      | none => none
      | some (rest', jr) => some (j :: rest', jr)

/-- `POST /assign/{job_id}/{driver_id}` handler `assign_driver`
(src/main.py lines 162-170): linear scan; on the first match set
`status="assigned"` and `driver_id`, return the message and the updated
job; otherwise raise 404 "Job not found". -/
def assign_driver (s : AppState) (job_id driver_id : Int) :
    Except HTTPError (AppState × String × Job) :=
  match assignInJobs job_id driver_id s.jobs with
  | some (jobs', j') => .ok ({ s with jobs := jobs' }, "Driver assigned", j')
  | none => .error { status_code := 404, detail := "Job not found" }

/-- `POST /complete/{job_id}` handler `complete_job`
(src/main.py lines 173-180). -/
def complete_job (s : AppState) (job_id : Int) :
    Except HTTPError (AppState × String × Job) :=
  match completeInJobs job_id s.jobs with
  | some (jobs', j') => .ok ({ s with jobs := jobs' }, "Job completed", j')
  | none => .error { status_code := 404, detail := "Job not found" }

/-- One API request, as far as it affects the registries.  `getJobs` and
`getDrivers` are included to witness that the read endpoints take part in
every operation sequence without effect. -/
inductive Op where
  | createJob (jc : JobCreate)
  | createDriver (dc : DriverCreate)
  | assign (job_id driver_id : Int)
  | complete (job_id : Int)
  | getJobs
  | getDrivers
deriving Repr

/-- State after one request: a raised `HTTPException` aborts the handler
before any mutation, so the error branch keeps the state. -/
def applyOp (s : AppState) : Op → AppState
  | .createJob jc => (create_job s jc).1
  | .createDriver dc => (create_driver s dc).1
  | .assign jid did =>
    match assign_driver s jid did with
    | .ok (s', _) => s'
    | .error _ => s
  | .complete jid =>
    match complete_job s jid with
    | .ok (s', _) => s'
    | .error _ => s
  | .getJobs => (get_jobs s).2
  | .getDrivers => (get_drivers s).2

/-- State after a sequence of requests, starting from the seeds. -/
def runOps (ops : List Op) : AppState :=
  ops.foldl applyOp initState

/-- A state the API can actually be in. -/
def Reachable (s : AppState) : Prop :=
  ∃ ops : List Op, s = runOps ops

/-- The job a client sees for a given id: the first list entry whose id
matches, exactly as the handlers' linear scans resolve it. -/
def findJob (job_id : Int) (l : List Job) : Option Job :=
  l.find? (fun j => j.id == job_id)

/-- Overwriting `status` with the value it already holds changes nothing. -/
theorem set_status_self (j : Job) (c : String) (h : j.status = c) :
    { j with status := c } = j := by
  cases j
  simp_all

/-- When some job in the list carries the id, the assignment loop fires:
it returns an updated list and a job with `status="assigned"` and the
requested `driver_id`. -/
theorem assignInJobs_mem (jid did : Int) (l : List Job)
    (h : ∃ j ∈ l, j.id = jid) :
    ∃ l' j', assignInJobs jid did l = some (l', j') ∧
      j'.status = "assigned" ∧ j'.driver_id = some did ∧ j'.id = jid := by
  induction l with
  | nil => simp at h
  | cons j rest ih =>
    by_cases hj : j.id = jid
    · exact ⟨{ j with status := "assigned", driver_id := some did } :: rest,
        { j with status := "assigned", driver_id := some did },
        by simp only [assignInJobs, if_pos hj], rfl, rfl, hj⟩
    · obtain ⟨j0, hj0, hid⟩ := h
      rcases List.mem_cons.mp hj0 with rfl | hmem
      · exact absurd hid hj
      · obtain ⟨l', j', heq, hs, hd, hi⟩ := ih ⟨j0, hmem, hid⟩
        exact ⟨j :: l', j', by simp only [assignInJobs, if_neg hj, heq], hs, hd, hi⟩

/-- When no job in the list carries the id, the assignment loop falls
through. -/
theorem assignInJobs_none (jid did : Int) (l : List Job)
    (h : ∀ j ∈ l, j.id ≠ jid) :
    assignInJobs jid did l = none := by
  induction l with
  | nil => rfl
  | cons j rest ih =>
    have hj : j.id ≠ jid := h j (List.mem_cons_self j rest)
    have := ih (fun j' hj' => h j' (List.mem_cons_of_mem j hj'))
    simp [assignInJobs, hj, this]

/-- The updated list pairs with the old one entry by entry: each job is
either untouched or is the (single) one rewritten to `assigned`. -/
theorem assignInJobs_forall2 (jid did : Int) (l l' : List Job) (jr : Job)
    (h : assignInJobs jid did l = some (l', jr)) :
    List.Forall₂ (fun j j' => j' = j ∨
      j' = { j with status := "assigned", driver_id := some did }) l l' := by
  induction l generalizing l' jr with
  | nil => simp [assignInJobs] at h
  | cons j rest ih =>
    by_cases hj : j.id = jid
    · simp only [assignInJobs, if_pos hj, Option.some.injEq, Prod.mk.injEq] at h
      obtain ⟨h1, h2⟩ := h
      subst h1
      exact List.Forall₂.cons (Or.inr rfl)
        (List.forall₂_same.mpr (fun x _ => Or.inl rfl))
    · simp only [assignInJobs, if_neg hj] at h
      cases heq : assignInJobs jid did rest with
      | none => rw [heq] at h; simp at h
      | some p =>
        rw [heq] at h
        obtain ⟨rest', jr'⟩ := p
        simp only [Option.some.injEq, Prod.mk.injEq] at h
        obtain ⟨h1, h2⟩ := h
        subst h1
        subst h2
        exact List.Forall₂.cons (Or.inl rfl) (ih rest' jr' heq)

/-- When some job in the list carries the id, the completion loop fires:
it returns an updated list and a job with `status="completed"`. -/
theorem completeInJobs_mem (jid : Int) (l : List Job)
    (h : ∃ j ∈ l, j.id = jid) :
    ∃ l' j', completeInJobs jid l = some (l', j') ∧
      j'.status = "completed" ∧ j'.id = jid := by
  induction l with
  | nil => simp at h
  | cons j rest ih =>
    by_cases hj : j.id = jid
    · exact ⟨{ j with status := "completed" } :: rest,
        { j with status := "completed" },
        by simp only [completeInJobs, if_pos hj], rfl, hj⟩
    · obtain ⟨j0, hj0, hid⟩ := h
      rcases List.mem_cons.mp hj0 with rfl | hmem
      · exact absurd hid hj
      · obtain ⟨l', j', heq, hs, hi⟩ := ih ⟨j0, hmem, hid⟩
        exact ⟨j :: l', j', by simp only [completeInJobs, if_neg hj, heq], hs, hi⟩

/-- When no job in the list carries the id, the completion loop falls
through. -/
theorem completeInJobs_none (jid : Int) (l : List Job)
    (h : ∀ j ∈ l, j.id ≠ jid) :
    completeInJobs jid l = none := by
  induction l with
  | nil => rfl
  | cons j rest ih =>
    have hj : j.id ≠ jid := h j (List.mem_cons_self j rest)
    have := ih (fun j' hj' => h j' (List.mem_cons_of_mem j hj'))
    simp [completeInJobs, hj, this]

/-- Entry-by-entry shape of the completion loop's output list. -/
theorem completeInJobs_forall2 (jid : Int) (l l' : List Job) (jr : Job)
    (h : completeInJobs jid l = some (l', jr)) :
    List.Forall₂ (fun j j' => j' = j ∨
      j' = { j with status := "completed" }) l l' := by
  induction l generalizing l' jr with
  | nil => simp [completeInJobs] at h
  | cons j rest ih =>
    by_cases hj : j.id = jid
    · simp only [completeInJobs, if_pos hj, Option.some.injEq, Prod.mk.injEq] at h
      obtain ⟨h1, h2⟩ := h
      subst h1
      exact List.Forall₂.cons (Or.inr rfl)
        (List.forall₂_same.mpr (fun x _ => Or.inl rfl))
    · simp only [completeInJobs, if_neg hj] at h
      cases heq : completeInJobs jid rest with
      | none => rw [heq] at h; simp at h
      | some p =>
        rw [heq] at h
        obtain ⟨rest', jr'⟩ := p
        simp only [Option.some.injEq, Prod.mk.injEq] at h
        obtain ⟨h1, h2⟩ := h
        subst h1
        subst h2
        exact List.Forall₂.cons (Or.inl rfl) (ih rest' jr' heq)

/-- Completing a second time hits the same job, rewrites `"completed"`
over `"completed"`, and reproduces the list and the returned job. -/
theorem completeInJobs_idem (jid : Int) (l l' : List Job) (jr : Job)
    (h : completeInJobs jid l = some (l', jr)) :
    completeInJobs jid l' = some (l', jr) := by
  induction l generalizing l' jr with
  | nil => simp [completeInJobs] at h
  | cons j rest ih =>
    by_cases hj : j.id = jid
    · simp only [completeInJobs, if_pos hj, Option.some.injEq, Prod.mk.injEq] at h
      obtain ⟨h1, h2⟩ := h
      subst h1
      subst h2
      have hid : ({ j with status := "completed" } : Job).id = jid := hj
      simp only [completeInJobs, if_pos hid]
    · simp only [completeInJobs, if_neg hj] at h
      cases heq : completeInJobs jid rest with
      | none => rw [heq] at h; simp at h
      | some p =>
        rw [heq] at h
        obtain ⟨rest', jr'⟩ := p
        simp only [Option.some.injEq, Prod.mk.injEq] at h
        obtain ⟨h1, h2⟩ := h
        subst h1
        subst h2
        simp only [completeInJobs, if_neg hj, ih rest' jr' heq]

/-- The loop returns exactly the first matching job, rebound by
`findJob` on the updated list (assignment case). -/
theorem assignInJobs_findJob (jid did : Int) (l l' : List Job) (jr : Job)
    (h : assignInJobs jid did l = some (l', jr)) :
    findJob jid l' = some jr := by
  induction l generalizing l' jr with
  | nil => simp [assignInJobs] at h
  | cons j rest ih =>
    by_cases hj : j.id = jid
    · simp only [assignInJobs, if_pos hj, Option.some.injEq, Prod.mk.injEq] at h
      obtain ⟨h1, h2⟩ := h
      subst h1
      subst h2
      simp [findJob, List.find?, hj]
    · simp only [assignInJobs, if_neg hj] at h
      cases heq : assignInJobs jid did rest with
      | none => rw [heq] at h; simp at h
      | some p =>
        rw [heq] at h
        obtain ⟨rest', jr'⟩ := p
        simp only [Option.some.injEq, Prod.mk.injEq] at h
        obtain ⟨h1, h2⟩ := h
        subst h1
        subst h2
        have hjb : (j.id == jid) = false := by simp [hj]
        simpa [findJob, List.find?, hjb] using ih rest' jr' heq

/-- The loop returns exactly the first matching job, rebound by
`findJob` on the updated list (completion case). -/
theorem completeInJobs_findJob (jid : Int) (l l' : List Job) (jr : Job)
    (h : completeInJobs jid l = some (l', jr)) :
    findJob jid l' = some jr := by
  induction l generalizing l' jr with
  | nil => simp [completeInJobs] at h
  | cons j rest ih =>
    by_cases hj : j.id = jid
    · simp only [completeInJobs, if_pos hj, Option.some.injEq, Prod.mk.injEq] at h
      obtain ⟨h1, h2⟩ := h
      subst h1
      subst h2
      simp [findJob, List.find?, hj]
    · simp only [completeInJobs, if_neg hj] at h
      cases heq : completeInJobs jid rest with
      | none => rw [heq] at h; simp at h
      | some p =>
        rw [heq] at h
        obtain ⟨rest', jr'⟩ := p
        simp only [Option.some.injEq, Prod.mk.injEq] at h
        obtain ⟨h1, h2⟩ := h
        subst h1
        subst h2
        have hjb : (j.id == jid) = false := by simp [hj]
        simpa [findJob, List.find?, hjb] using ih rest' jr' heq

/-- A pairwise relation that fixes ids fixes the list of ids. -/
theorem forall2_map_id {R : Job → Job → Prop}
    (hR : ∀ a b, R a b → b.id = a.id) (l l' : List Job)
    (h : List.Forall₂ R l l') : l'.map Job.id = l.map Job.id := by
  induction h with
  | nil => rfl
  | cons hab _ ih => simp [hR _ _ hab, ih]

/-- The assignment loop rewrites statuses and driver ids only: the list
of job ids is untouched. -/
theorem assignInJobs_map_id (jid did : Int) (l l' : List Job) (jr : Job)
    (h : assignInJobs jid did l = some (l', jr)) :
    l'.map Job.id = l.map Job.id :=
  forall2_map_id (fun a b hab => by rcases hab with rfl | rfl <;> rfl) l l'
    (assignInJobs_forall2 jid did l l' jr h)

/-- The completion loop rewrites statuses only: job ids untouched. -/
theorem completeInJobs_map_id (jid : Int) (l l' : List Job) (jr : Job)
    (h : completeInJobs jid l = some (l', jr)) :
    l'.map Job.id = l.map Job.id :=
  forall2_map_id (fun a b hab => by rcases hab with rfl | rfl <;> rfl) l l'
    (completeInJobs_forall2 jid l l' jr h)

/-- The counter/uniqueness invariant of both registries: every stored id
is below its counter, and the stored ids are pairwise distinct. -/
def RegistryInv (s : AppState) : Prop :=
  (∀ j ∈ s.jobs, j.id < s.next_job_id) ∧
  (∀ d ∈ s.drivers, d.id < s.next_driver_id) ∧
  (s.jobs.map Job.id).Nodup ∧
  (s.drivers.map Driver.id).Nodup

/-- `POST /assign` never touches ids, the job counter, or the driver
registry, whether it finds the job or raises 404. -/
theorem applyOp_assign (s : AppState) (jid did : Int) :
    (applyOp s (Op.assign jid did)).jobs.map Job.id = s.jobs.map Job.id ∧
    (applyOp s (Op.assign jid did)).next_job_id = s.next_job_id ∧
    (applyOp s (Op.assign jid did)).drivers = s.drivers ∧
    (applyOp s (Op.assign jid did)).next_driver_id = s.next_driver_id := by
  simp only [applyOp, assign_driver]
  cases heq : assignInJobs jid did s.jobs with
  | none => simp
  | some p =>
    obtain ⟨l', jr⟩ := p
    simp [assignInJobs_map_id jid did s.jobs l' jr heq]

/-- `POST /complete` never touches ids, the job counter, or the driver
registry, whether it finds the job or raises 404. -/
theorem applyOp_complete (s : AppState) (jid : Int) :
    (applyOp s (Op.complete jid)).jobs.map Job.id = s.jobs.map Job.id ∧
    (applyOp s (Op.complete jid)).next_job_id = s.next_job_id ∧
    (applyOp s (Op.complete jid)).drivers = s.drivers ∧
    (applyOp s (Op.complete jid)).next_driver_id = s.next_driver_id := by
  simp only [applyOp, complete_job]
  cases heq : completeInJobs jid s.jobs with
  | none => simp
  | some p =>
    obtain ⟨l', jr⟩ := p
    simp [completeInJobs_map_id jid s.jobs l' jr heq]

/-- Every request preserves the registry invariant. -/
theorem applyOp_inv (s : AppState) (op : Op) (h : RegistryInv s) :
    RegistryInv (applyOp s op) := by
  obtain ⟨hjob, hdrv, hjn, hdn⟩ := h
  cases op with
  | createJob jc =>
    refine ⟨?_, hdrv, ?_, hdn⟩
    · intro j hj
      simp only [applyOp, create_job, List.mem_append, List.mem_singleton] at hj ⊢
      rcases hj with hj | rfl
      · exact lt_trans (hjob j hj) (lt_add_one _)
      · exact lt_add_one _
    · simp only [applyOp, create_job, List.map_append, List.map_cons,
        List.map_nil]
      refine List.Nodup.append hjn (List.nodup_singleton _) ?_
      intro a ha hb
      simp only [List.mem_singleton] at hb
      obtain ⟨j0, hj0, hid⟩ := List.mem_map.mp ha
      have hlt : j0.id < s.next_job_id := hjob j0 hj0
      have ha' : a = s.next_job_id := hb
      rw [hid, ha'] at hlt
      exact lt_irrefl _ hlt
  | createDriver dc =>
    refine ⟨hjob, ?_, hjn, ?_⟩
    · intro d hd
      simp only [applyOp, create_driver, List.mem_append, List.mem_singleton] at hd ⊢
      rcases hd with hd | rfl
      · exact lt_trans (hdrv d hd) (lt_add_one _)
      · exact lt_add_one _
    · simp only [applyOp, create_driver, List.map_append, List.map_cons,
        List.map_nil]
      refine List.Nodup.append hdn (List.nodup_singleton _) ?_
      intro a ha hb
      simp only [List.mem_singleton] at hb
      obtain ⟨d0, hd0, hid⟩ := List.mem_map.mp ha
      have hlt : d0.id < s.next_driver_id := hdrv d0 hd0
      have ha' : a = s.next_driver_id := hb
      rw [hid, ha'] at hlt
      exact lt_irrefl _ hlt
  | assign jid did =>
    obtain ⟨h1, h2, h3, h4⟩ := applyOp_assign s jid did
    refine ⟨?_, ?_, ?_, ?_⟩
    · intro j hj
      have : j.id ∈ (applyOp s (Op.assign jid did)).jobs.map Job.id :=
        List.mem_map_of_mem Job.id hj
      rw [h1] at this
      obtain ⟨j0, hj0, hid⟩ := List.mem_map.mp this
      rw [h2, ← hid]
      exact hjob j0 hj0
    · rw [h3]; intro d hd; rw [h4]; exact hdrv d hd
    · rw [h1]; exact hjn
    · rw [h3]; exact hdn
  | complete jid =>
    obtain ⟨h1, h2, h3, h4⟩ := applyOp_complete s jid
    refine ⟨?_, ?_, ?_, ?_⟩
    · intro j hj
      have : j.id ∈ (applyOp s (Op.complete jid)).jobs.map Job.id :=
        List.mem_map_of_mem Job.id hj
      rw [h1] at this
      obtain ⟨j0, hj0, hid⟩ := List.mem_map.mp this
      rw [h2, ← hid]
      exact hjob j0 hj0
    · rw [h3]; intro d hd; rw [h4]; exact hdrv d hd
    · rw [h1]; exact hjn
    · rw [h3]; exact hdn
  | getJobs => exact ⟨hjob, hdrv, hjn, hdn⟩
  | getDrivers => exact ⟨hjob, hdrv, hjn, hdn⟩

/-- The seed state satisfies the registry invariant. -/
theorem initState_inv : RegistryInv initState := by
  unfold RegistryInv initState
  refine ⟨?_, ?_, ?_, ?_⟩ <;> decide

/-- A run of `POST /jobs` requests: the state after all of them together
with the list of job records the calls returned, in call order. -/
def runCreates (s : AppState) : List JobCreate → AppState × List Job
  | [] => (s, [])
  | jc :: rest =>
    let p := create_job s jc
    let q := runCreates p.1 rest
    (q.1, p.2 :: q.2)

/-- Each `POST /jobs` of a run appends exactly its returned record. -/
theorem runCreates_jobs (jcs : List JobCreate) (s : AppState) :
    (runCreates s jcs).1.jobs = s.jobs ++ (runCreates s jcs).2 := by
  induction jcs generalizing s with
  | nil => simp [runCreates]
  | cons jc rest ih =>
    simp only [runCreates]
    rw [ih (create_job s jc).1]
    show (create_job s jc).1.jobs ++ _ = _
    simp [create_job]

/-- A run of creations returns one record per request. -/
theorem runCreates_length (jcs : List JobCreate) (s : AppState) :
    (runCreates s jcs).2.length = jcs.length := by
  induction jcs generalizing s with
  | nil => rfl
  | cons jc rest ih => simp [runCreates, ih]

/-- Modelled from the spec: a JSON scalar as it can appear as a field of
the `POST /drivers` request body.  The pydantic/FastAPI validation layer
that parses the body is not part of src/; §7 of the spec describes it
(missing or mistyped required fields are rejected with a field-level
description before the handler runs). -/
inductive JVal where
  | jnull
  | jstr (s : String)
  | jnum (n : Int)
deriving Repr, DecidableEq

/-- Modelled from the spec: the raw, unvalidated `POST /drivers` body —
each declared field either absent or bound to a JSON scalar. -/
structure DriverCreateRaw where
  name : Option JVal := none
  current_location : Option JVal := none
  phone : Option JVal := none
  vehicle_type : Option JVal := none
deriving Repr, DecidableEq

/-- Modelled from the spec: a field-level schema-validation failure
(HTTP 422), per §7 of the spec. -/
structure ValidationError where
  loc : String
  msg : String
deriving Repr, DecidableEq

/-- Modelled from the spec: validation of an `Optional[str]` field —
absent or null defaults to `None`, text passes through, anything else is
a type error. -/
def validateOptStr (loc : String) : Option JVal → Except ValidationError (Option String)
  | none => .ok none
  | some .jnull => .ok none
  | some (.jstr v) => .ok (some v)
  | some (.jnum _) => .error { loc := loc, msg := "str type expected" }

/-- Modelled from the spec: schema validation of `DriverCreate`
(src/main.py lines 42-46): `name` must be present and be text; the three
remaining fields are optional text. -/
def validateDriverCreate (raw : DriverCreateRaw) : Except ValidationError DriverCreate :=
  match raw.name with
  | none => .error { loc := "name", msg := "field required" }
  | some .jnull => .error { loc := "name", msg := "none is not an allowed value" }
  | some (.jnum _) => .error { loc := "name", msg := "str type expected" }
  | some (.jstr n) =>
    match validateOptStr "current_location" raw.current_location with
    | .error e => .error e
    | .ok cl =>
      match validateOptStr "phone" raw.phone with
      | .error e => .error e
      | .ok ph =>
        match validateOptStr "vehicle_type" raw.vehicle_type with
        | .error e => .error e
        | .ok vt => .ok { name := n, current_location := cl, phone := ph, vehicle_type := vt }

/-- The full `POST /drivers` round trip: validation then the handler.
Validation failure surfaces before `create_driver` runs. -/
def create_driver_endpoint (s : AppState) (raw : DriverCreateRaw) :
    Except ValidationError (AppState × Driver) :=
  match validateDriverCreate raw with
  | .error e => .error e
  | .ok dc => .ok (create_driver s dc)

/-- The registry state after a `POST /drivers` request: unchanged when
validation rejects the body. -/
def driverEndpointState (s : AppState) (raw : DriverCreateRaw) : AppState :=
  match create_driver_endpoint s raw with
  | .ok (s', _) => s'
  | .error _ => s

/-- The position of a status in the forward order
available → assigned → completed stated by the spec (§3). -/
def statusRank : String → Nat
  | "available" => 0
  | "assigned" => 1
  | "completed" => 2
  | _ => 3

/-- How one request may relate a stored job to its updated image: same
id, and the status is either untouched or overwritten with `"assigned"`
(by `assign_driver`) or `"completed"` (by `complete_job`). -/
def StatusStep (j j' : Job) : Prop :=
  j'.id = j.id ∧
  (j'.status = j.status ∨ j'.status = "assigned" ∨ j'.status = "completed")

/-- Every reachable state satisfies the registry invariant. -/
theorem reachable_inv (s : AppState) (hs : Reachable s) : RegistryInv s := by
  obtain ⟨ops, rfl⟩ := hs
  unfold runOps
  have : ∀ (l : List Op) (t : AppState), RegistryInv t →
      RegistryInv (l.foldl applyOp t) := by
    intro l
    induction l with
    | nil => exact fun t ht => ht
    | cons op rest ih => exact fun t ht => ih _ (applyOp_inv t op ht)
  exact this ops initState initState_inv

/-- C1 (counterexample): the claimed forward-only status invariant fails
on reachable states.  Starting from the seeds, `POST /complete/1` puts
job 1 at status "completed" (rank 2, and already a skip over
"assigned"), and a following `POST /assign/1/1` moves it back to
"assigned" (rank 1) — a backward transition. -/
theorem C1_counterexample :
    Option.map (fun j => statusRank j.status)
      (findJob 1 (runOps [Op.complete 1]).jobs) = some 2 ∧
    Option.map (fun j => statusRank j.status)
      (findJob 1 (runOps [Op.complete 1, Op.assign 1 1]).jobs) = some 1 :=
  ⟨rfl, rfl⟩

/-- C1 (amended): per request, each stored job keeps its id and its
status is either untouched or overwritten with "assigned" or
"completed"; in particular no job ever returns to "available", but
backward moves into "assigned" and skips into "completed" are allowed. -/
theorem C1_status_step (s : AppState) (op : Op) :
    List.Forall₂ StatusStep s.jobs ((applyOp s op).jobs.take s.jobs.length) := by
  have hrefl : ∀ l : List Job, List.Forall₂ StatusStep l l :=
    fun l => List.forall₂_same.mpr (fun x _ => ⟨rfl, Or.inl rfl⟩)
  cases op with
  | createJob jc =>
    show List.Forall₂ StatusStep s.jobs
      ((s.jobs ++ [(create_job s jc).2]).take s.jobs.length)
    rw [List.take_left]
    exact hrefl s.jobs
  | createDriver dc =>
    show List.Forall₂ StatusStep s.jobs (s.jobs.take s.jobs.length)
    rw [List.take_length]
    exact hrefl s.jobs
  | assign jid did =>
    simp only [applyOp, assign_driver]
    cases heq : assignInJobs jid did s.jobs with
    | none =>
      simp only [List.take_length]
      exact hrefl s.jobs
    | some p =>
      obtain ⟨l', jr⟩ := p
      have h2 := assignInJobs_forall2 jid did s.jobs l' jr heq
      have hlen : s.jobs.length = l'.length := h2.length_eq
      show List.Forall₂ StatusStep s.jobs (l'.take s.jobs.length)
      rw [hlen, List.take_length]
      refine h2.imp ?_
      intro a b hab
      rcases hab with rfl | rfl
      · exact ⟨rfl, Or.inl rfl⟩
      · exact ⟨rfl, Or.inr (Or.inl rfl)⟩
  | complete jid =>
    simp only [applyOp, complete_job]
    cases heq : completeInJobs jid s.jobs with
    | none =>
      simp only [List.take_length]
      exact hrefl s.jobs
    | some p =>
      obtain ⟨l', jr⟩ := p
      have h2 := completeInJobs_forall2 jid s.jobs l' jr heq
      have hlen : s.jobs.length = l'.length := h2.length_eq
      show List.Forall₂ StatusStep s.jobs (l'.take s.jobs.length)
      rw [hlen, List.take_length]
      refine h2.imp ?_
      intro a b hab
      rcases hab with rfl | rfl
      · exact ⟨rfl, Or.inl rfl⟩
      · exact ⟨rfl, Or.inr (Or.inr rfl)⟩
  | getJobs =>
    show List.Forall₂ StatusStep s.jobs (s.jobs.take s.jobs.length)
    rw [List.take_length]
    exact hrefl s.jobs
  | getDrivers =>
    show List.Forall₂ StatusStep s.jobs (s.jobs.take s.jobs.length)
    rw [List.take_length]
    exact hrefl s.jobs

/-- C2: `POST /assign` on an existing job id always succeeds — no check
on the current status and none on `driver_id` — and afterwards the job
with that id has `status="assigned"` and the given `driver_id`; a second
assignment with another `driver_id` succeeds again and overwrites it. -/
theorem C2_assign_existing (s : AppState) (jid did did2 : Int)
    (h : ∃ j ∈ s.jobs, j.id = jid) :
    ∃ s' j', assign_driver s jid did = .ok (s', "Driver assigned", j') ∧
      j'.status = "assigned" ∧ j'.driver_id = some did ∧
      findJob jid s'.jobs = some j' ∧
      ∃ s'' j'', assign_driver s' jid did2 = .ok (s'', "Driver assigned", j'') ∧
        j''.status = "assigned" ∧ j''.driver_id = some did2 ∧
        findJob jid s''.jobs = some j'' := by
  obtain ⟨l', jr, heq, hs, hd, hi⟩ := assignInJobs_mem jid did s.jobs h
  have hfind := assignInJobs_findJob jid did s.jobs l' jr heq
  refine ⟨{ s with jobs := l' }, jr, by simp [assign_driver, heq], hs, hd,
    hfind, ?_⟩
  have hmem : ∃ j ∈ l', j.id = jid :=
    ⟨jr, List.mem_of_find?_eq_some hfind, hi⟩
  obtain ⟨l'', jr2, heq2, hs2, hd2, _⟩ := assignInJobs_mem jid did2 l' hmem
  exact ⟨{ s with jobs := l'' }, jr2, by simp [assign_driver, heq2], hs2, hd2,
    assignInJobs_findJob jid did2 l' l'' jr2 heq2⟩

/-- C2 witness: in the seed state, assigning driver 5 to job 1 and then
driver 7 to job 1 behaves as stated. -/
theorem C2_witness :
    ∃ s' j', assign_driver initState 1 5 = .ok (s', "Driver assigned", j') ∧
      j'.status = "assigned" ∧ j'.driver_id = some 5 ∧
      findJob 1 s'.jobs = some j' ∧
      ∃ s'' j'', assign_driver s' 1 7 = .ok (s'', "Driver assigned", j'') ∧
        j''.status = "assigned" ∧ j''.driver_id = some 7 ∧
        findJob 1 s''.jobs = some j'' := by
  apply C2_assign_existing initState 1 5 7
  exact ⟨_, List.mem_cons_self _ _, rfl⟩

/-- C3: `POST /complete` on an existing job id always succeeds — no
precondition on the current status — leaving the job at
`status="completed"`; completing again succeeds and reproduces exactly
the same registry state and response. -/
theorem C3_complete_idempotent (s : AppState) (jid : Int)
    (h : ∃ j ∈ s.jobs, j.id = jid) :
    ∃ s' j', complete_job s jid = .ok (s', "Job completed", j') ∧
      j'.status = "completed" ∧ findJob jid s'.jobs = some j' ∧
      complete_job s' jid = .ok (s', "Job completed", j') := by
  obtain ⟨l', jr, heq, hs, _⟩ := completeInJobs_mem jid s.jobs h
  refine ⟨{ s with jobs := l' }, jr, by simp [complete_job, heq], hs,
    completeInJobs_findJob jid s.jobs l' jr heq, ?_⟩
  have hidem := completeInJobs_idem jid s.jobs l' jr heq
  simp [complete_job, hidem]

/-- C3 witness: completing seed job 2 twice behaves as stated. -/
theorem C3_witness :
    ∃ s' j', complete_job initState 2 = .ok (s', "Job completed", j') ∧
      j'.status = "completed" ∧ findJob 2 s'.jobs = some j' ∧
      complete_job s' 2 = .ok (s', "Job completed", j') := by
  apply C3_complete_idempotent initState 2
  exact ⟨{ id := 2, pickup_location := "Port of Seattle Terminal 18",
           dropoff_location := "Redmond Microsoft Campus",
           load_description := "Electronics container", status := "available" },
         List.mem_cons_of_mem _ (List.mem_cons_self _ _), rfl⟩

/-- C4: `POST /assign` and `POST /complete` on a job id no stored job
carries raise 404 "Job not found", and the whole state — both registries
and both counters — is left untouched. -/
theorem C4_not_found (s : AppState) (jid did : Int)
    (h : ∀ j ∈ s.jobs, j.id ≠ jid) :
    assign_driver s jid did =
      .error { status_code := 404, detail := "Job not found" } ∧
    complete_job s jid =
      .error { status_code := 404, detail := "Job not found" } ∧
    applyOp s (Op.assign jid did) = s ∧
    applyOp s (Op.complete jid) = s := by
  have h1 := assignInJobs_none jid did s.jobs h
  have h2 := completeInJobs_none jid s.jobs h
  exact ⟨by simp [assign_driver, h1], by simp [complete_job, h2],
    by simp [applyOp, assign_driver, h1], by simp [applyOp, complete_job, h2]⟩

/-- C4 witness: job id 99 exists in no seed record. -/
theorem C4_witness :
    assign_driver initState 99 1 =
      .error { status_code := 404, detail := "Job not found" } ∧
    complete_job initState 99 =
      .error { status_code := 404, detail := "Job not found" } ∧
    applyOp initState (Op.assign 99 1) = initState ∧
    applyOp initState (Op.complete 99) = initState := by
  apply C4_not_found initState 99 1
  intro j hj
  simp only [initState, List.mem_cons, List.not_mem_nil, or_false] at hj
  rcases hj with rfl | rfl <;> decide

/-- C5: `POST /jobs` on any reachable state returns a job with
`status="available"`, `driver_id=None`, and an id strictly above every
id already in the registry (the seeds included); it appends exactly that
record and bumps the id counter by one. -/
theorem C5_create_job_spec (s : AppState) (hs : Reachable s) (jc : JobCreate) :
    (create_job s jc).2.status = "available" ∧
    (create_job s jc).2.driver_id = none ∧
    (∀ j ∈ s.jobs, j.id < (create_job s jc).2.id) ∧
    (create_job s jc).1.next_job_id = s.next_job_id + 1 ∧
    (create_job s jc).1.jobs = s.jobs ++ [(create_job s jc).2] := by
  obtain ⟨hjob, _, _, _⟩ := reachable_inv s hs
  exact ⟨rfl, rfl, fun j hj => hjob j hj, rfl, rfl⟩

/-- C5 witness: creating a job in the seed state. -/
theorem C5_witness :
    (create_job initState
      { pickup_location := "A", dropoff_location := "B",
        load_description := "boxes" }).2.status = "available" ∧
    (create_job initState
      { pickup_location := "A", dropoff_location := "B",
        load_description := "boxes" }).2.driver_id = none ∧
    (∀ j ∈ initState.jobs, j.id < (create_job initState
      { pickup_location := "A", dropoff_location := "B",
        load_description := "boxes" }).2.id) ∧
    (create_job initState
      { pickup_location := "A", dropoff_location := "B",
        load_description := "boxes" }).1.next_job_id
        = initState.next_job_id + 1 ∧
    (create_job initState
      { pickup_location := "A", dropoff_location := "B",
        load_description := "boxes" }).1.jobs
        = initState.jobs ++ [(create_job initState
      { pickup_location := "A", dropoff_location := "B",
        load_description := "boxes" }).2] :=
  C5_create_job_spec initState ⟨[], rfl⟩
    { pickup_location := "A", dropoff_location := "B",
      load_description := "boxes" }

/-- C6: after any run of `POST /jobs` requests from the seed state,
`GET /jobs` returns exactly the two seed jobs followed by the created
jobs in creation order — one per request, nothing dropped, duplicated or
reordered — and `GET /jobs` itself returns the state unchanged. -/
theorem C6_list_after_creates (jcs : List JobCreate) :
    (get_jobs (runCreates initState jcs).1).1
      = initState.jobs ++ (runCreates initState jcs).2 ∧
    (runCreates initState jcs).2.length = jcs.length ∧
    initState.jobs.length = 2 ∧
    ∀ s : AppState, get_jobs s = (s.jobs, s) :=
  ⟨runCreates_jobs jcs initState, runCreates_length jcs initState, rfl,
    fun _ => rfl⟩

/-- C7: a `POST /drivers` body whose `current_location` was absent (so
the schema bound it to `None`) is stored and returned with
`current_location="Unknown"`; a body whose `name` is missing or not text
is rejected by validation and the state is untouched. -/
theorem C7_driver_default_and_validation (s : AppState) (dc : DriverCreate)
    (raw : DriverCreateRaw)
    (h1 : dc.current_location = none)
    (h2 : raw.name = none ∨ raw.name = some .jnull ∨
      ∃ n, raw.name = some (.jnum n)) :
    (create_driver s dc).2.current_location = some "Unknown" ∧
    (create_driver s dc).1.drivers = s.drivers ++ [(create_driver s dc).2] ∧
    (∃ e, create_driver_endpoint s raw = .error e) ∧
    driverEndpointState s raw = s := by
  refine ⟨by simp [create_driver, orUnknown, h1], rfl, ?_, ?_⟩
  · rcases h2 with hn | hn | ⟨n, hn⟩
    · exact ⟨{ loc := "name", msg := "field required" },
        by simp [create_driver_endpoint, validateDriverCreate, hn]⟩
    · exact ⟨{ loc := "name", msg := "none is not an allowed value" },
        by simp [create_driver_endpoint, validateDriverCreate, hn]⟩
    · exact ⟨{ loc := "name", msg := "str type expected" },
        by simp [create_driver_endpoint, validateDriverCreate, hn]⟩
  · rcases h2 with hn | hn | ⟨n, hn⟩ <;>
      simp [driverEndpointState, create_driver_endpoint,
        validateDriverCreate, hn]

/-- C7 witness: a body with only `name="Bob"` set, and a body with no
`name` at all. -/
theorem C7_witness :
    (create_driver initState { name := "Bob" }).2.current_location
      = some "Unknown" ∧
    (create_driver initState { name := "Bob" }).1.drivers
      = initState.drivers ++ [(create_driver initState { name := "Bob" }).2] ∧
    (∃ e, create_driver_endpoint initState {} = .error e) ∧
    driverEndpointState initState {} = initState :=
  C7_driver_default_and_validation initState { name := "Bob" } {} rfl
    (Or.inl rfl)

/-- One request never shrinks or edits the driver registry: it extends
it (by the one created driver, or by nothing). -/
theorem applyOp_drivers_extend (s : AppState) (op : Op) :
    ∃ tail, (applyOp s op).drivers = s.drivers ++ tail := by
  cases op with
  | createJob jc => exact ⟨[], by simp [applyOp, create_job]⟩
  | createDriver dc => exact ⟨[(create_driver s dc).2], rfl⟩
  | assign jid did =>
    exact ⟨[], by rw [(applyOp_assign s jid did).2.2.1, List.append_nil]⟩
  | complete jid =>
    exact ⟨[], by rw [(applyOp_complete s jid).2.2.1, List.append_nil]⟩
  | getJobs => exact ⟨[], (List.append_nil _).symm⟩
  | getDrivers => exact ⟨[], (List.append_nil _).symm⟩

/-- A whole run of requests never shrinks or edits the driver registry. -/
theorem foldl_drivers_extend (ops : List Op) :
    ∀ s : AppState, ∃ tail, (ops.foldl applyOp s).drivers = s.drivers ++ tail := by
  induction ops with
  | nil => exact fun s => ⟨[], (List.append_nil _).symm⟩
  | cons op rest ih =>
    intro s
    obtain ⟨t1, h1⟩ := applyOp_drivers_extend s op
    obtain ⟨t2, h2⟩ := ih (applyOp s op)
    exact ⟨t1 ++ t2, by rw [List.foldl_cons, h2, h1, List.append_assoc]⟩

/-- C8: drivers are immutable once created: under any sequence of
requests the driver registry is only ever extended at the tail, so every
stored driver keeps all of its fields and is never removed; and
`POST /assign` specifically leaves the driver registry and its counter
untouched whether or not it finds the job. -/
theorem C8_drivers_immutable (s : AppState) (ops : List Op) (jid did : Int) :
    (∃ tail, (ops.foldl applyOp s).drivers = s.drivers ++ tail) ∧
    (applyOp s (Op.assign jid did)).drivers = s.drivers ∧
    (applyOp s (Op.assign jid did)).next_driver_id = s.next_driver_id :=
  ⟨foldl_drivers_extend ops s, (applyOp_assign s jid did).2.2.1,
    (applyOp_assign s jid did).2.2.2⟩

/-- C9: a `POST /drivers` body whose `current_location` is explicitly
the empty string is stored and returned with
`current_location="Unknown"`: Python's `or` replaces any falsy value,
not only an absent one. -/
theorem C9_empty_location_sentinel (s : AppState) (dc : DriverCreate)
    (h : dc.current_location = some "") :
    (create_driver s dc).2.current_location = some "Unknown" ∧
    (create_driver s dc).1.drivers = s.drivers ++ [(create_driver s dc).2] :=
  ⟨by simp [create_driver, orUnknown, h], rfl⟩

/-- C9 witness: registering a driver with `current_location=""`. -/
theorem C9_witness :
    (create_driver initState
      { name := "Bob", current_location := some "" }).2.current_location
      = some "Unknown" ∧
    (create_driver initState
      { name := "Bob", current_location := some "" }).1.drivers
      = initState.drivers ++ [(create_driver initState
      { name := "Bob", current_location := some "" }).2] :=
  C9_empty_location_sentinel initState
    { name := "Bob", current_location := some "" } rfl

/-- C10: in every reachable state each stored job id is strictly below
`next_job_id` and each stored driver id strictly below `next_driver_id`;
consequently the stored job ids are pairwise distinct, and so are the
stored driver ids. -/
theorem C10_counter_invariant (s : AppState) (hs : Reachable s) :
    (∀ j ∈ s.jobs, j.id < s.next_job_id) ∧
    (∀ d ∈ s.drivers, d.id < s.next_driver_id) ∧
    (s.jobs.map Job.id).Nodup ∧
    (s.drivers.map Driver.id).Nodup :=
  reachable_inv s hs

/-- C10 witness: the invariant at the seed state. -/
theorem C10_witness :
    (∀ j ∈ initState.jobs, j.id < initState.next_job_id) ∧
    (∀ d ∈ initState.drivers, d.id < initState.next_driver_id) ∧
    (initState.jobs.map Job.id).Nodup ∧
    (initState.drivers.map Driver.id).Nodup :=
  C10_counter_invariant initState ⟨[], rfl⟩

end LastMile
